import Mathlib

/-!
Verification development for the pomodoro-timer repository.

The repository is a browser Pomodoro timer.  The parts relevant here are:

* `src/hooks/useTimer.ts` — the countdown engine.  The file holds two
  variants of the hook: the first detects completion in a watcher effect
  (`useEffect` on `remainingSeconds`/`state`, lines 55-64), the second
  detects completion inside the interval callback (lines 109-127).  Both
  are embedded below as `TimerA` (watcher variant) and `TimerB`
  (interval-callback variant).

* `src/hooks/useDialDrag.ts` — the drag controller and the pure
  angle-to-minutes conversion.

* `src/utils/sound.ts` — the alarm subsystem (`playAlarm`,
  `primeAlarmAudio` and their fallback tiers).

React state updates are collapsed to explicit record updates; the
`setInterval` handle becomes the boolean `intervalActive` (a tick event is
a no-op once the interval has been cleared, which is exactly the effect of
`clearInterval`).  Side effects (`playAlarm()` invocations, transitions to
`done`, `start` calls) are counted by instrumentation fields so that
"exactly once" claims can be stated.
-/

namespace PomodoroTimer

/-- The timer state union from `useTimer.ts` line 4:
`type TimerState = 'idle' | 'running' | 'done'`. -/
inductive TimerState where
  | idle
  | running
  | done
deriving DecidableEq, Repr

/-- Engine state for the `useTimer` hook.  `remainingSeconds` and `state`
are the two `useState` cells; `alarmFired` is `alarmFiredRef.current`;
`intervalActive` abstracts `intervalRef.current !== null`.  The counters
`alarmCount`, `doneCount` and `startCount` are instrumentation: they count
`playAlarm()` invocations, transitions into `done`, and `start` calls.
`remainingSeconds` is modelled as an integer so that the "floored at 0,
never negative" behaviour of the tick is a real statement. -/
structure Engine where
  remainingSeconds : Int
  state : TimerState
  alarmFired : Bool
  intervalActive : Bool
  alarmCount : Nat
  doneCount : Nat
  startCount : Nat
deriving DecidableEq, Repr

/-- The initial hook state: `useState(0)`, `useState('idle')`,
`alarmFiredRef = useRef(false)`, no interval scheduled. -/
def Engine.init : Engine :=
  { remainingSeconds := 0, state := .idle, alarmFired := false,
    intervalActive := false, alarmCount := 0, doneCount := 0, startCount := 0 }

/-- The updater passed to `setRemainingSeconds` in the interval callback
(`useTimer.ts` lines 36-41): `prev <= 1 ? 0 : prev - 1`. -/
def tickUpdate (prev : Int) : Int :=
  if prev ≤ 1 then 0 else prev - 1

/-- `clearTimer` (`useTimer.ts` lines 19-24): clears the interval handle. -/
def clearTimer (e : Engine) : Engine :=
  { e with intervalActive := false }

namespace TimerA

/-- Watcher-variant completion effect (`useTimer.ts` lines 55-64): when
`state === 'running' && remainingSeconds === 0`, clear the timer, move to
`done`, and fire the alarm unless `alarmFiredRef.current` is already set. -/
def watch (e : Engine) : Engine :=
  if e.state = .running ∧ e.remainingSeconds = 0 then
    let e1 := clearTimer e
    let e2 := { e1 with state := .done, doneCount := e1.doneCount + 1 }
    if e2.alarmFired then e2
    else { e2 with alarmFired := true, alarmCount := e2.alarmCount + 1 }
  else e

/-- The body of `start` (`useTimer.ts` lines 26-45) before any effect
runs: `clearTimer(); alarmFiredRef.current = false;
setRemainingSeconds(totalSeconds); setState('running');
intervalRef.current = setInterval(...)`. -/
def startRaw (totalSeconds : Int) (e : Engine) : Engine :=
  let e1 := clearTimer e
  { e1 with alarmFired := false, remainingSeconds := totalSeconds,
            state := .running, intervalActive := true,
            startCount := e1.startCount + 1 }

/-- `start(totalSeconds)` followed by the completion watcher effect, which
React runs after the state update commits. -/
def start (totalSeconds : Int) (e : Engine) : Engine :=
  watch (startRaw totalSeconds e)

/-- One firing of the interval callback (`useTimer.ts` lines 35-42).  If
the interval has been cleared the callback never runs, hence the
`intervalActive` guard. -/
def tickRaw (e : Engine) : Engine :=
  if e.intervalActive then
    { e with remainingSeconds := tickUpdate e.remainingSeconds }
  else e

/-- An interval tick followed by the completion watcher effect. -/
def tick (e : Engine) : Engine :=
  watch (tickRaw e)

/-- `reset` (`useTimer.ts` lines 47-52). -/
def reset (e : Engine) : Engine :=
  let e1 := clearTimer e
  { e1 with alarmFired := false, remainingSeconds := 0, state := .idle }

/-- Iterated ticks. -/
def ticks (n : Nat) (e : Engine) : Engine :=
  match n with
  | 0 => e
  | n + 1 => ticks n (tick e)

/-- Events the hook can process: a `start(n)` call, an interval tick, a
`reset()` call, and a re-run of the completion watcher effect (React can
replay the effect on any state update). -/
inductive Event where
  | start (totalSeconds : Int)
  | tick
  | reset
  | watch
deriving DecidableEq, Repr

/-- Apply one event. -/
def stepEvent (e : Engine) : Event → Engine
  | .start n => start n e
  | .tick => tick e
  | .reset => reset e
  | .watch => watch e

/-- Run a list of events left to right. -/
def run (e : Engine) (evs : List Event) : Engine :=
  evs.foldl stepEvent e

end TimerA

namespace TimerB

/-- The body of `start` in the interval-callback variant
(`useTimer.ts` lines 100-128) before any tick fires. -/
def startRaw (totalSeconds : Int) (e : Engine) : Engine :=
  let e1 := clearTimer e
  { e1 with alarmFired := false, remainingSeconds := totalSeconds,
            state := .running, intervalActive := true,
            startCount := e1.startCount + 1 }

/-- In this variant `start` schedules the interval and returns; there is
no watcher effect. -/
def start (totalSeconds : Int) (e : Engine) : Engine :=
  startRaw totalSeconds e

/-- One firing of the interval callback (`useTimer.ts` lines 109-127):
`didFinish` is set when `prev <= 1`; afterwards the callback clears the
timer, sets `done` and fires the alarm under the `alarmFiredRef` guard. -/
def tick (e : Engine) : Engine :=
  if e.intervalActive then
    let didFinish := e.remainingSeconds ≤ 1
    let e1 := { e with remainingSeconds := tickUpdate e.remainingSeconds }
    if didFinish then
      let e2 := clearTimer e1
      let e3 := { e2 with state := .done, doneCount := e2.doneCount + 1 }
      if e3.alarmFired then e3
      else { e3 with alarmFired := true, alarmCount := e3.alarmCount + 1 }
    else e1
  else e

/-- `reset` (`useTimer.ts` lines 132-137). -/
def reset (e : Engine) : Engine :=
  let e1 := clearTimer e
  { e1 with alarmFired := false, remainingSeconds := 0, state := .idle }

/-- Iterated ticks. -/
def ticks (n : Nat) (e : Engine) : Engine :=
  match n with
  | 0 => e
  | n + 1 => ticks n (tick e)

/-- Events for the interval-callback variant (no separate watcher). -/
inductive Event where
  | start (totalSeconds : Int)
  | tick
  | reset
deriving DecidableEq, Repr

/-- Apply one event. -/
def stepEvent (e : Engine) : Event → Engine
  | .start n => start n e
  | .tick => tick e
  | .reset => reset e

/-- Run a list of events left to right. -/
def run (e : Engine) (evs : List Event) : Engine :=
  evs.foldl stepEvent e

end TimerB

/-- Alarm potential: a run can still fire the alarm exactly when it is
`running` with the one-shot guard not yet set. -/
def potAlarm (e : Engine) : Nat :=
  if e.state = .running ∧ e.alarmFired = false then 1 else 0

/-- Done potential: a run can still transition into `done` exactly when
it is `running`. -/
def potDone (e : Engine) : Nat :=
  if e.state = .running then 1 else 0

/-- The one-shot discipline, as an inductive invariant: a scheduled
interval only exists for a running engine, alarms fired plus the pending
alarm potential never exceed the number of `start` calls, and likewise
for transitions into `done`. -/
def EngineInv (e : Engine) : Prop :=
  (e.intervalActive = true → e.state = .running) ∧
  e.alarmCount + potAlarm e ≤ e.startCount ∧
  e.doneCount + potDone e ≤ e.startCount

/-- Whether a watcher-variant event is a `start` call. -/
def TimerA.isStart : TimerA.Event → Bool
  | .start _ => true
  | _ => false

/-- Number of `start` calls in a watcher-variant event sequence. -/
def TimerA.countStarts (evs : List TimerA.Event) : Nat :=
  evs.countP TimerA.isStart

/-- Whether an interval-callback-variant event is a `start` call. -/
def TimerB.isStart : TimerB.Event → Bool
  | .start _ => true
  | _ => false

/-- Number of `start` calls in an interval-callback-variant event
sequence. -/
def TimerB.countStarts (evs : List TimerB.Event) : Nat :=
  evs.countP TimerB.isStart

/-!
Drag controller and angle conversion, from `src/hooks/useDialDrag.ts`.

Angles are embedded as rationals (the source works on JS doubles; the
spec-level geometry is exact).  `Math.round` on the non-negative angles in
play rounds half up, which over `ℚ` is `⌊x + 1/2⌋`.  The raw pointer
geometry (`getAngleFromCenter`, an `atan2` computation returning a value
in `[0, 360)`) is abstracted: drag events carry the already-computed
angle.  The `svg` element is mounted for as long as the hook's listeners
are installed, so `getCenter()` is modelled as always succeeding.
-/

/-- `MIN_MINUTES` (`useDialDrag.ts` line 3). -/
def MIN_MINUTES : Int := 1

/-- `MAX_MINUTES` (`useDialDrag.ts` line 4). -/
def MAX_MINUTES : Int := 60

/-- JavaScript `Math.round` on a non-negative rational: half-up rounding,
`⌊x + 1/2⌋`. -/
def jsRound (x : ℚ) : Int :=
  ⌊x + 1 / 2⌋

/-- `angleToMinutes` (`useDialDrag.ts` lines 10-13):
`Math.max(MIN_MINUTES, Math.min(MAX_MINUTES, Math.round(angleDeg / 360 * MAX_MINUTES)))`. -/
def angleToMinutes (angleDeg : ℚ) : Int :=
  let raw := jsRound (angleDeg / 360 * (MAX_MINUTES : ℚ))
  max MIN_MINUTES (min MAX_MINUTES raw)

/-- The angle clamp in `handleMove`/`handleEnd` (`useDialDrag.ts`
lines 70 and 87): `angle === 0 ? 360 : angle`, the "exactly 12 o'clock
means a full circle" rule. -/
def clampedAngle (angle : ℚ) : ℚ :=
  if angle = 0 then 360 else angle

/-- Drag-controller state.  `draggingRef` and `isDragging` are the ref and
the state cell of the hook; `angleDeg` and `dragMinutes` are the preview
state cells; `commits` records the arguments of the `onDragEnd` calls the
hook has made (newest last). -/
structure DragState where
  draggingRef : Bool
  isDragging : Bool
  angleDeg : ℚ
  dragMinutes : Int
  commits : List Int
deriving DecidableEq, Repr

/-- Initial hook state (`useState(false)`, `useState(0)`, `useState(0)`,
`useRef(false)`). -/
def DragState.init : DragState :=
  { draggingRef := false, isDragging := false, angleDeg := 0,
    dragMinutes := 0, commits := [] }

/-- `handleMove` (`useDialDrag.ts` lines 62-75), with the pointer
coordinates already converted to the angle `a` in `[0, 360)`.  Updates
the preview cells when a drag is active. -/
def handleMove (a : ℚ) (s : DragState) : DragState :=
  if s.draggingRef then
    let ca := clampedAngle a
    { s with angleDeg := ca, dragMinutes := angleToMinutes ca }
  else s

/-- `handleEnd` (`useDialDrag.ts` lines 77-99): leave the dragging state,
compute the final minutes from the release angle, commit via `onDragEnd`
when `minutes >= MIN_MINUTES`, then reset the preview cells to zero. -/
def handleEnd (a : ℚ) (s : DragState) : DragState :=
  if s.draggingRef then
    let s1 := { s with draggingRef := false, isDragging := false }
    let minutes := angleToMinutes (clampedAngle a)
    let s2 := if minutes ≥ MIN_MINUTES
              then { s1 with commits := s1.commits ++ [minutes] }
              else s1
    { s2 with angleDeg := 0, dragMinutes := 0 }
  else s

/-- Gesture start (`handleMouseDown` / `handleTouchStart`,
`useDialDrag.ts` lines 102-110 and 127-136): set the dragging flags and
process the initial sample through `handleMove`. -/
def handleStart (a : ℚ) (s : DragState) : DragState :=
  handleMove a { s with draggingRef := true, isDragging := true }

/-- A completed drag gesture: a gesture-start at angle `a0`, any number
of move samples, then a gesture-end at angle `a1`. -/
def runGesture (a0 : ℚ) (moves : List ℚ) (a1 : ℚ) (s : DragState) : DragState :=
  handleEnd a1 (moves.foldl (fun st a => handleMove a st) (handleStart a0 s))

/-!
Alarm subsystem, from `src/utils/sound.ts`.

The platform is abstracted into `SoundEnv`: which constructors exist,
whether the `AudioContext` is in a blocked state, and whether the two
asynchronous operations (`ctx.resume()` and `audio.play()`) resolve or
reject.  Each of those operations is embedded as an `Except Unit Unit`
value; the `.then`/`.catch` chains of the source become `match`es on that
`Except`, so an uncaught rejection would surface as `Except.error` in the
result type.  The observable behaviour is the list of `SoundAction`s the
code issues, in order.
-/

/-- Platform environment for the alarm subsystem. -/
structure SoundEnv where
  /-- `isLikelyIOS()` (`sound.ts` lines 47-51). -/
  likelyIOS : Bool
  /-- An `AudioContext` constructor exists (`sound.ts` lines 37-41). -/
  hasAudioContext : Bool
  /-- `ctx.state` is `'suspended'` or `'interrupted'`
  (`isContextBlocked`, `sound.ts` lines 53-56). -/
  ctxBlocked : Bool
  /-- `ctx.resume()` resolves (rather than rejects). -/
  resumeOk : Bool
  /-- The fallback `HTMLAudioElement` exists (`getFallbackAudio`
  returning non-null, `sound.ts` lines 154-161). -/
  hasAudioElement : Bool
  /-- `audio.play()` on the fallback clip resolves (rather than
  rejects). -/
  clipPlayOk : Bool
  /-- `'vibrate' in navigator` (`sound.ts` line 205). -/
  canVibrate : Bool
deriving DecidableEq, Repr

/-- Observable actions issued by the alarm subsystem, in program order. -/
inductive SoundAction where
  /-- `ctx.resume()` was requested. -/
  | ctxResume
  /-- One synthesized beep scheduled by `scheduleAlarm`. -/
  | beep
  /-- `source.start(0)` of the silent unlock pulse
  (`playSilentUnlockPulse`). -/
  | silentPulse
  /-- `audio.pause()` on the fallback clip. -/
  | clipPause
  /-- `audio.currentTime = 0` on the fallback clip. -/
  | clipSeekZero
  /-- `audio.volume = v` on the fallback clip. -/
  | clipSetVolume (v : ℚ)
  /-- `audio.play()` requested on the fallback clip. -/
  | clipPlayAttempt
  /-- `navigator.vibrate(pattern)`. -/
  | vibrate (pattern : List Nat)
deriving DecidableEq, Repr

/-- The alarm preset record (`sound.ts` lines 10-28,
`LOW_NOTIFICATION_PRESET`).  `beepDuration`, `beepGap` and `gain` are the
source's fractional constants as rationals. -/
structure AlarmPreset where
  beepCount : Nat
  beepDuration : ℚ
  beepGap : ℚ
  startFrequency : ℚ
  endFrequency : ℚ
  gain : ℚ
deriving DecidableEq, Repr

/-- `LOW_NOTIFICATION_PRESET` (`sound.ts` lines 20-28). -/
def LOW_NOTIFICATION_PRESET : AlarmPreset :=
  { beepCount := 4, beepDuration := 1/5, beepGap := 9/50,
    startFrequency := 520, endFrequency := 470, gain := 9/50 }

/-- `getAudioContext` (`sound.ts` lines 35-45): the lazily constructed
context, or `none` when no constructor is available. -/
def getAudioContextM (env : SoundEnv) : Option Unit :=
  if env.hasAudioContext then some () else none

/-- `getFallbackAudio` (`sound.ts` lines 154-161): the lazily constructed
fallback clip element, or `none` when unavailable. -/
def getFallbackAudioM (env : SoundEnv) : Option Unit :=
  if env.hasAudioElement then some () else none

/-- The asynchronous `ctx.resume()` call: resolves or rejects according to
the environment. -/
def resumeOp (env : SoundEnv) : Except Unit Unit :=
  if env.resumeOk then .ok () else .error ()

/-- The asynchronous `audio.play()` call on the fallback clip: resolves or
rejects according to the environment. -/
def clipPlayOp (env : SoundEnv) : Except Unit Unit :=
  if env.clipPlayOk then .ok () else .error ()

/-- `scheduleAlarm` (`sound.ts` lines 58-87): schedules
`preset.beepCount` oscillator beeps on the context. -/
def scheduleAlarmActions : List SoundAction :=
  List.replicate LOW_NOTIFICATION_PRESET.beepCount .beep

/-- `playVibrationFallback` (`sound.ts` lines 204-208): vibrate with the
fixed pattern when the navigator supports it, otherwise do nothing. -/
def playVibrationFallback (env : SoundEnv) : List SoundAction :=
  if env.canVibrate then [.vibrate [140, 90, 140, 90, 220]] else []

/-- `playFallbackAlarm` (`sound.ts` lines 163-177): rewind the fallback
clip, set full volume, request playback once; a rejected playback is
caught and degrades to the vibration fallback.  Returns the action trace;
an uncaught rejection would be an `Except.error`. -/
def playFallbackAlarmE (env : SoundEnv) : Except Unit (List SoundAction) :=
  match getFallbackAudioM env with
  | none => .ok (playVibrationFallback env)
  | some _ =>
    let pre : List SoundAction := [.clipPause, .clipSeekZero, .clipSetVolume 1, .clipPlayAttempt]
    match clipPlayOp env with
    | .ok _ => .ok pre
    | .error _ => .ok (pre ++ playVibrationFallback env)

/-- `playAlarm` (`sound.ts` lines 226-252): on iOS-like platforms go
straight to the fallback; with no context constructor, fall back; with a
blocked context, `resume().then(scheduleAlarm).catch(playFallbackAlarm)`;
otherwise schedule the synthesized pattern directly. -/
def playAlarmE (env : SoundEnv) : Except Unit (List SoundAction) :=
  if env.likelyIOS then playFallbackAlarmE env
  else
    match getAudioContextM env with
    | none => playFallbackAlarmE env
    | some _ =>
      if env.ctxBlocked then
        match resumeOp env with
        | .ok _ => .ok ([.ctxResume] ++ scheduleAlarmActions)
        | .error _ => playFallbackAlarmE env
      else .ok scheduleAlarmActions

/-- Module unlock state touched by `primeAlarmAudio`
(`isAudioUnlocked`, `fallbackAudioUnlocked`; the two in-flight promise
guards are collapsed, since each settled promise restores its guard to
null in its `finally`). -/
structure SoundState where
  isAudioUnlocked : Bool
  fallbackAudioUnlocked : Bool
deriving DecidableEq, Repr

/-- `unlockAudioContext` (`sound.ts` lines 97-103): resume the context
when blocked (a rejection propagates to the caller's `catch`), play the
silent pulse, and record whether the context ended up running. -/
def unlockAudioContextE (env : SoundEnv) : Except Unit (Bool × List SoundAction) :=
  if env.ctxBlocked then
    match resumeOp env with
    | .ok _ => .ok (true, [.ctxResume, .silentPulse])
    | .error _ => .error ()
  else .ok (true, [.silentPulse])

/-- `primeFallbackAudio` (`sound.ts` lines 179-202): muted trial playback
of the fallback clip; success pauses, rewinds and marks the clip
unlocked, failure is swallowed; the `finally` restores the volume. -/
def primeFallbackAudio (env : SoundEnv) (st : SoundState) :
    SoundState × List SoundAction :=
  match getFallbackAudioM env with
  | none => (st, [])
  | some _ =>
    if st.fallbackAudioUnlocked then (st, [])
    else
      match clipPlayOp env with
      | .ok _ =>
        ({ st with fallbackAudioUnlocked := true },
         [.clipSetVolume 0, .clipPlayAttempt, .clipPause, .clipSeekZero,
          .clipSetVolume 1])
      | .error _ =>
        (st, [.clipSetVolume 0, .clipPlayAttempt, .clipSetVolume 1])

/-- `primeAlarmAudio` (`sound.ts` lines 210-224): attempt to unlock the
synthesized context (all rejections caught and ignored), then prime the
fallback clip.  Returns the updated unlock state and the action trace. -/
def primeAlarmAudioE (env : SoundEnv) (st : SoundState) :
    Except Unit (SoundState × List SoundAction) :=
  let (st1, tr1) :=
    match getAudioContextM env with
    | none => (st, ([] : List SoundAction))
    | some _ =>
      if st.isAudioUnlocked then (st, [])
      else
        match unlockAudioContextE env with
        | .ok (u, tr) => ({ st with isAudioUnlocked := u }, tr)
        | .error _ => (st, [])
  let (st2, tr2) := primeFallbackAudio env st1
  .ok (st2, tr1 ++ tr2)

/-!
Helper lemmas about the angle conversion.
-/

/-- The clamp `Math.max(MIN_MINUTES, ...)` makes every converted duration
at least `MIN_MINUTES`. -/
lemma min_minutes_le_angleToMinutes (a : ℚ) : MIN_MINUTES ≤ angleToMinutes a :=
  le_max_left _ _

/-- The clamp `Math.min(MAX_MINUTES, ...)` makes every converted duration
at most `MAX_MINUTES`. -/
lemma angleToMinutes_le_max_minutes (a : ℚ) : angleToMinutes a ≤ MAX_MINUTES :=
  max_le (by norm_num [MIN_MINUTES, MAX_MINUTES]) (min_le_left _ _)

/-- Half-up rounding is monotone. -/
lemma jsRound_mono {x y : ℚ} (h : x ≤ y) : jsRound x ≤ jsRound y :=
  Int.floor_le_floor (by linarith)

/-- `angleToMinutes` is monotone in the angle. -/
lemma angleToMinutes_mono {a b : ℚ} (h : a ≤ b) :
    angleToMinutes a ≤ angleToMinutes b := by
  unfold angleToMinutes
  refine max_le_max le_rfl (min_le_min le_rfl (jsRound_mono ?_))
  have h6 : a / 360 * (MAX_MINUTES : ℚ) = a * (1 / 6) := by
    norm_num [MAX_MINUTES]; ring
  have h6' : b / 360 * (MAX_MINUTES : ℚ) = b * (1 / 6) := by
    norm_num [MAX_MINUTES]; ring
  rw [h6, h6']
  exact mul_le_mul_of_nonneg_right h (by norm_num)

/-!
Helper lemmas about the drag controller.
-/

/-- Move samples never change the dragging flags or the commit log; they
only refresh the preview cells. -/
lemma foldl_handleMove_invariants (moves : List ℚ) (s : DragState) :
    (moves.foldl (fun st a => handleMove a st) s).draggingRef = s.draggingRef ∧
    (moves.foldl (fun st a => handleMove a st) s).commits = s.commits := by
  induction moves generalizing s with
  | nil => exact ⟨rfl, rfl⟩
  | cons a rest ih =>
    simp only [List.foldl_cons]
    have hm : (handleMove a s).draggingRef = s.draggingRef ∧
        (handleMove a s).commits = s.commits := by
      unfold handleMove; split <;> exact ⟨rfl, rfl⟩
    exact ⟨(ih (handleMove a s)).1.trans hm.1,
           (ih (handleMove a s)).2.trans hm.2⟩

/-- A single move sample preserves the dragging flag and the commit log. -/
lemma handleMove_invariants (a : ℚ) (s : DragState) :
    (handleMove a s).draggingRef = s.draggingRef ∧
    (handleMove a s).commits = s.commits := by
  unfold handleMove; split <;> exact ⟨rfl, rfl⟩

/-- `handleEnd` on an active drag appends exactly the converted release
minutes to the commit log. -/
lemma handleEnd_commits (a : ℚ) (s : DragState) (h : s.draggingRef = true) :
    (handleEnd a s).commits = s.commits ++ [angleToMinutes (clampedAngle a)] := by
  unfold handleEnd
  rw [h]
  simp only [if_true]
  rw [if_pos (min_minutes_le_angleToMinutes (clampedAngle a))]

/-!
Claim theorems for the angle conversion and drag controller.
-/

/-- C4: a drag released at exactly 0° commits 60 minutes — the clamp in
`handleMove`/`handleEnd` treats an angle of exactly 0 as 360, and
`angleToMinutes` at the full-circle angle 360 yields 60. -/
theorem claim4_zero_angle_full_circle :
    clampedAngle 0 = 360 ∧
    angleToMinutes (clampedAngle 0) = 60 ∧
    angleToMinutes 360 = 60 := by
  norm_num [clampedAngle, angleToMinutes, jsRound, MIN_MINUTES, MAX_MINUTES]

/-- C7: for all angles in `[0, 360)`, `angleToMinutes` lies in `[1, 60]`
and is monotonically non-decreasing. -/
theorem claim7_angleToMinutes_range_mono :
    (∀ a : ℚ, 0 ≤ a → a < 360 →
      1 ≤ angleToMinutes a ∧ angleToMinutes a ≤ 60) ∧
    (∀ a1 a2 : ℚ, 0 ≤ a1 → a1 < 360 → 0 ≤ a2 → a2 < 360 → a1 ≤ a2 →
      angleToMinutes a1 ≤ angleToMinutes a2) := by
  constructor
  · intro a _ _
    exact ⟨min_minutes_le_angleToMinutes a, angleToMinutes_le_max_minutes a⟩
  · intro a1 a2 _ _ _ _ h
    exact angleToMinutes_mono h

/-- C7 witness: the bounds and monotonicity at the concrete angles 90°
and 180°. -/
theorem claim7_witness :
    ((0:ℚ) ≤ 90 ∧ (90:ℚ) < 360 ∧ (0:ℚ) ≤ 180 ∧ (180:ℚ) < 360 ∧ (90:ℚ) ≤ 180) ∧
    (1 ≤ angleToMinutes 90 ∧ angleToMinutes 90 ≤ 60) ∧
    angleToMinutes 90 ≤ angleToMinutes 180 :=
  ⟨by norm_num,
   claim7_angleToMinutes_range_mono.1 90 (by norm_num) (by norm_num),
   claim7_angleToMinutes_range_mono.2 90 180 (by norm_num) (by norm_num)
     (by norm_num) (by norm_num) (by norm_num)⟩

/-- C6: every completed drag gesture (a start, any move samples, then an
end) emits exactly one commit, its value lies in `[1, 60]`, and the
`minutes >= MIN_MINUTES` guard at commit is always satisfied — the
converter clamps every angle to at least `MIN_MINUTES`, so the
below-minimum branch is unreachable. -/
theorem claim6_one_commit_per_gesture (s : DragState) (a0 : ℚ)
    (moves : List ℚ) (a1 : ℚ) :
    (runGesture a0 moves a1 s).commits
      = s.commits ++ [angleToMinutes (clampedAngle a1)] ∧
    1 ≤ angleToMinutes (clampedAngle a1) ∧
    angleToMinutes (clampedAngle a1) ≤ 60 ∧
    (∀ a : ℚ, MIN_MINUTES ≤ angleToMinutes a) := by
  have hstart : (handleStart a0 s).draggingRef = true ∧
      (handleStart a0 s).commits = s.commits := by
    unfold handleStart
    have h := handleMove_invariants a0
      { s with draggingRef := true, isDragging := true }
    exact ⟨h.1, h.2⟩
  have hmid := foldl_handleMove_invariants moves (handleStart a0 s)
  have hdrag : (moves.foldl (fun st a => handleMove a st)
      (handleStart a0 s)).draggingRef = true := hmid.1.trans hstart.1
  have hcomm : (moves.foldl (fun st a => handleMove a st)
      (handleStart a0 s)).commits = s.commits := hmid.2.trans hstart.2
  refine ⟨?_, min_minutes_le_angleToMinutes _,
    angleToMinutes_le_max_minutes _, min_minutes_le_angleToMinutes⟩
  unfold runGesture
  rw [handleEnd_commits a1 _ hdrag, hcomm]

/-- C9: on every gesture-end during an active drag, the controller resets
the preview cells (`angleDeg`, `dragMinutes`) to zero and leaves the
dragging state. -/
theorem claim9_preview_reset (s : DragState) (a : ℚ)
    (h : s.draggingRef = true) :
    (handleEnd a s).angleDeg = 0 ∧ (handleEnd a s).dragMinutes = 0 ∧
    (handleEnd a s).isDragging = false ∧
    (handleEnd a s).draggingRef = false := by
  unfold handleEnd
  rw [h]
  simp only [if_true]
  rw [if_pos (min_minutes_le_angleToMinutes (clampedAngle a))]
  simp

/-- C9 witness: the reset after a concrete gesture started at 90° and
released at 180°. -/
theorem claim9_witness :
    (handleStart 90 DragState.init).draggingRef = true ∧
    ((handleEnd 180 (handleStart 90 DragState.init)).angleDeg = 0 ∧
     (handleEnd 180 (handleStart 90 DragState.init)).dragMinutes = 0 ∧
     (handleEnd 180 (handleStart 90 DragState.init)).isDragging = false ∧
     (handleEnd 180 (handleStart 90 DragState.init)).draggingRef = false) :=
  ⟨by decide, claim9_preview_reset (handleStart 90 DragState.init) 180 (by decide)⟩

/-!
Helper lemmas for the watcher-variant countdown engine.
-/

namespace TimerA

/-- The completion watcher is a no-op while time remains. -/
lemma watch_of_remaining_ne (e : Engine) (h : e.remainingSeconds ≠ 0) :
    watch e = e := by
  unfold watch
  rw [if_neg]
  rintro ⟨-, h0⟩
  exact h h0

/-- The completion watcher is a no-op outside the `running` state. -/
lemma watch_of_not_running (e : Engine) (h : ¬ e.state = .running) :
    watch e = e := by
  unfold watch
  rw [if_neg]
  rintro ⟨hs, -⟩
  exact h hs

/-- The completion watcher on a running engine at zero with a clear
one-shot guard: stop the interval, enter `done`, fire the alarm. -/
lemma watch_fire (e : Engine) (hs : e.state = .running)
    (h0 : e.remainingSeconds = 0) (hf : e.alarmFired = false) :
    watch e = { e with
                state := .done, intervalActive := false,
                alarmFired := true, alarmCount := e.alarmCount + 1,
                doneCount := e.doneCount + 1 } := by
  unfold watch clearTimer
  rw [if_pos ⟨hs, h0⟩]
  simp [hf]

/-- A tick with more than one second left decrements the countdown and
changes nothing else. -/
lemma tick_decrement (e : Engine) (hi : e.intervalActive = true)
    (hr : 1 < e.remainingSeconds) :
    tick e = { e with remainingSeconds := e.remainingSeconds - 1 } := by
  have h1 : tickRaw e = { e with remainingSeconds := e.remainingSeconds - 1 } := by
    unfold tickRaw tickUpdate
    rw [if_pos hi, if_neg (by omega)]
  unfold tick
  rw [h1]
  exact watch_of_remaining_ne _ (by show e.remainingSeconds - 1 ≠ 0; omega)

/-- The final tick of a run: the countdown hits zero and the watcher
completes the run and fires the alarm once. -/
lemma tick_finish (e : Engine) (hs : e.state = .running)
    (hi : e.intervalActive = true) (hr : e.remainingSeconds = 1)
    (hf : e.alarmFired = false) :
    tick e = { e with
               remainingSeconds := 0, state := .done,
               intervalActive := false, alarmFired := true,
               alarmCount := e.alarmCount + 1,
               doneCount := e.doneCount + 1 } := by
  have h1 : tickRaw e = { e with remainingSeconds := 0 } := by
    unfold tickRaw tickUpdate
    rw [if_pos hi, if_pos (by omega)]
  unfold tick
  rw [h1, watch_fire { e with remainingSeconds := 0 } hs rfl hf]

/-- Ticks do nothing once the run is `done` and the interval cleared. -/
lemma tick_of_done (e : Engine) (hs : e.state = .done)
    (hi : e.intervalActive = false) : tick e = e := by
  have h1 : tickRaw e = e := by
    unfold tickRaw
    rw [hi]
    simp
  unfold tick
  rw [h1]
  exact watch_of_not_running e (by rw [hs]; simp)

/-- Unfolding iterated ticks from the far end. -/
lemma ticks_succ (n : Nat) (e : Engine) :
    ticks (n + 1) e = tick (ticks n e) := by
  induction n generalizing e with
  | zero => rfl
  | succ n ih =>
    show ticks (n + 1) (tick e) = tick (ticks (n + 1) e)
    rw [ih (tick e)]
    rfl

/-- Splitting iterated ticks. -/
lemma ticks_add (a b : Nat) (e : Engine) :
    ticks (a + b) e = ticks b (ticks a e) := by
  induction a generalizing e with
  | zero => rw [Nat.zero_add]; rfl
  | succ a ih =>
    rw [Nat.succ_add]
    show ticks (a + b) (tick e) = ticks b (ticks (a + 1) e)
    rw [ih (tick e)]
    rfl

/-- Iterated ticks do nothing once the run is `done` and the interval
cleared. -/
lemma ticks_of_done (m : Nat) (e : Engine) (hs : e.state = .done)
    (hi : e.intervalActive = false) : ticks m e = e := by
  induction m with
  | zero => rfl
  | succ m ih =>
    rw [ticks_succ, ih, tick_of_done e hs hi]

/-- While strictly more ticks remain than have fired, iterated ticks
decrement the countdown one per tick and touch nothing else. -/
lemma run_countdown (k : Nat) (e : Engine) (hs : e.state = .running)
    (hi : e.intervalActive = true)
    (hk : (k : Int) < e.remainingSeconds) :
    (ticks k e).remainingSeconds = e.remainingSeconds - k ∧
    (ticks k e).state = .running ∧
    (ticks k e).intervalActive = true ∧
    (ticks k e).alarmFired = e.alarmFired ∧
    (ticks k e).alarmCount = e.alarmCount ∧
    (ticks k e).doneCount = e.doneCount ∧
    (ticks k e).startCount = e.startCount := by
  induction k generalizing e with
  | zero =>
    refine ⟨?_, hs, hi, rfl, rfl, rfl, rfl⟩
    show e.remainingSeconds = e.remainingSeconds - ((0 : Nat) : Int)
    simp
  | succ k ih =>
    have hr : 1 < e.remainingSeconds := by
      have : ((k : Int)) + 1 < e.remainingSeconds := by push_cast at hk; omega
      omega
    have hstep : ticks (k + 1) e
        = ticks k { e with remainingSeconds := e.remainingSeconds - 1 } := by
      show ticks k (tick e) = _
      rw [tick_decrement e hi hr]
    rw [hstep]
    have hk' : (k : Int) < e.remainingSeconds - 1 := by push_cast at hk; omega
    obtain ⟨h1, h2, h3, h4, h5, h6, h7⟩ :=
      ih { e with remainingSeconds := e.remainingSeconds - 1 } hs hi hk'
    refine ⟨?_, h2, h3, h4, h5, h6, h7⟩
    rw [h1]
    push_cast
    omega

/-- A full countdown: from a running, armed engine with `R ≥ 1` seconds
left, `R` ticks (and any number of further stray ticks) end in `done`
with zero seconds left and the alarm fired exactly once. -/
lemma countdown_complete (f : Engine) (hs : f.state = .running)
    (hi : f.intervalActive = true) (hf : f.alarmFired = false)
    (hr : 1 ≤ f.remainingSeconds) (m : Nat) :
    (ticks (f.remainingSeconds.toNat + m) f).remainingSeconds = 0 ∧
    (ticks (f.remainingSeconds.toNat + m) f).state = .done ∧
    (ticks (f.remainingSeconds.toNat + m) f).intervalActive = false ∧
    (ticks (f.remainingSeconds.toNat + m) f).alarmCount = f.alarmCount + 1 := by
  obtain ⟨k0, hk0⟩ : ∃ k0 : Nat, f.remainingSeconds.toNat = k0 + 1 :=
    ⟨f.remainingSeconds.toNat - 1, by omega⟩
  have hk : (k0 : Int) < f.remainingSeconds := by omega
  obtain ⟨h1, h2, h3, h4, h5, h6, h7⟩ := run_countdown k0 f hs hi hk
  have hrem1 : (ticks k0 f).remainingSeconds = 1 := by rw [h1]; omega
  have hfin := tick_finish (ticks k0 f) h2 h3 hrem1 (h4.trans hf)
  rw [hk0, ticks_add (k0 + 1) m f, ticks_succ k0 f, hfin,
      ticks_of_done m _ rfl rfl]
  exact ⟨rfl, rfl, rfl, by rw [h5]⟩

/-- A `start` with a non-zero total does not trigger the watcher. -/
lemma start_eq_raw (N : Int) (e : Engine) (hN : N ≠ 0) :
    start N e = startRaw N e :=
  watch_of_remaining_ne _ (by show N ≠ 0; exact hN)

end TimerA

/-!
Helper lemmas for the interval-callback-variant countdown engine.
-/

namespace TimerB

/-- A tick does nothing once the interval has been cleared. -/
lemma tick_of_inactive (e : Engine) (hi : e.intervalActive = false) :
    tick e = e := by
  unfold tick
  rw [hi]
  simp

/-- A tick with more than one second left decrements the countdown and
does not finish. -/
lemma tick_decrementB (e : Engine) (hi : e.intervalActive = true)
    (hr : 1 < e.remainingSeconds) :
    tick e = { e with remainingSeconds := e.remainingSeconds - 1 } := by
  simp [tick, tickUpdate, hi, show ¬ e.remainingSeconds ≤ 1 from by omega]

/-- The final tick of a run: `didFinish` is observed, the callback clears
the interval, enters `done` and fires the alarm once. -/
lemma tick_finishB (e : Engine) (hi : e.intervalActive = true)
    (hr : e.remainingSeconds ≤ 1) (hf : e.alarmFired = false) :
    tick e = { e with
               remainingSeconds := 0, state := .done,
               intervalActive := false, alarmFired := true,
               alarmCount := e.alarmCount + 1,
               doneCount := e.doneCount + 1 } := by
  simp [tick, tickUpdate, clearTimer, hi, hf, hr]

/-- Unfolding iterated ticks from the far end. -/
lemma ticks_succB (n : Nat) (e : Engine) :
    ticks (n + 1) e = tick (ticks n e) := by
  induction n generalizing e with
  | zero => rfl
  | succ n ih =>
    show ticks (n + 1) (tick e) = tick (ticks (n + 1) e)
    rw [ih (tick e)]
    rfl

/-- Splitting iterated ticks. -/
lemma ticks_addB (a b : Nat) (e : Engine) :
    ticks (a + b) e = ticks b (ticks a e) := by
  induction a generalizing e with
  | zero => rw [Nat.zero_add]; rfl
  | succ a ih =>
    rw [Nat.succ_add]
    show ticks (a + b) (tick e) = ticks b (ticks (a + 1) e)
    rw [ih (tick e)]
    rfl

/-- Iterated ticks do nothing once the interval has been cleared. -/
lemma ticks_of_inactive (m : Nat) (e : Engine)
    (hi : e.intervalActive = false) : ticks m e = e := by
  induction m with
  | zero => rfl
  | succ m ih =>
    rw [ticks_succB, ih, tick_of_inactive e hi]

/-- While strictly more ticks remain than have fired, iterated ticks
decrement the countdown one per tick and touch nothing else. -/
lemma run_countdownB (k : Nat) (e : Engine)
    (hi : e.intervalActive = true)
    (hk : (k : Int) < e.remainingSeconds) :
    (ticks k e).remainingSeconds = e.remainingSeconds - k ∧
    (ticks k e).state = e.state ∧
    (ticks k e).intervalActive = true ∧
    (ticks k e).alarmFired = e.alarmFired ∧
    (ticks k e).alarmCount = e.alarmCount ∧
    (ticks k e).doneCount = e.doneCount ∧
    (ticks k e).startCount = e.startCount := by
  induction k generalizing e with
  | zero =>
    refine ⟨?_, rfl, hi, rfl, rfl, rfl, rfl⟩
    show e.remainingSeconds = e.remainingSeconds - ((0 : Nat) : Int)
    simp
  | succ k ih =>
    have hr : 1 < e.remainingSeconds := by
      have : ((k : Int)) + 1 < e.remainingSeconds := by push_cast at hk; omega
      omega
    have hstep : ticks (k + 1) e
        = ticks k { e with remainingSeconds := e.remainingSeconds - 1 } := by
      show ticks k (tick e) = _
      rw [tick_decrementB e hi hr]
    rw [hstep]
    have hk' : (k : Int) < e.remainingSeconds - 1 := by push_cast at hk; omega
    obtain ⟨h1, h2, h3, h4, h5, h6, h7⟩ :=
      ih { e with remainingSeconds := e.remainingSeconds - 1 } hi hk'
    refine ⟨?_, h2, h3, h4, h5, h6, h7⟩
    rw [h1]
    push_cast
    omega

/-- A full countdown: from an armed engine with `R ≥ 1` seconds left,
`R` ticks (and any number of further stray ticks) end in `done` with zero
seconds left and the alarm fired exactly once. -/
lemma countdown_completeB (f : Engine)
    (hi : f.intervalActive = true) (hf : f.alarmFired = false)
    (hr : 1 ≤ f.remainingSeconds) (m : Nat) :
    (ticks (f.remainingSeconds.toNat + m) f).remainingSeconds = 0 ∧
    (ticks (f.remainingSeconds.toNat + m) f).state = .done ∧
    (ticks (f.remainingSeconds.toNat + m) f).intervalActive = false ∧
    (ticks (f.remainingSeconds.toNat + m) f).alarmCount = f.alarmCount + 1 := by
  obtain ⟨k0, hk0⟩ : ∃ k0 : Nat, f.remainingSeconds.toNat = k0 + 1 :=
    ⟨f.remainingSeconds.toNat - 1, by omega⟩
  have hk : (k0 : Int) < f.remainingSeconds := by omega
  obtain ⟨h1, h2, h3, h4, h5, h6, h7⟩ := run_countdownB k0 f hi hk
  have hrem1 : (ticks k0 f).remainingSeconds ≤ 1 := by rw [h1]; omega
  have hfin := tick_finishB (ticks k0 f) h3 hrem1 (h4.trans hf)
  rw [hk0, ticks_addB (k0 + 1) m f, ticks_succB k0 f, hfin,
      ticks_of_inactive m _ rfl]
  exact ⟨rfl, rfl, rfl, by rw [h5]⟩

end TimerB

/-!
Claim theorems for the countdown engine.
-/

/-- C1: for every `N ≥ 1`, `start(N)` followed by `N` ticks drives
`remainingSeconds` from `N` down to `0` one second per tick, moves the
state from `running` to `done` on the final tick, and invokes the alarm
exactly once for the run — in both the watcher variant (`TimerA`) and the
interval-callback variant (`TimerB`) of `useTimer`. -/
theorem claim1_countdown_to_done (e : Engine) (N : Int) (hN : 1 ≤ N) :
    ((TimerA.start N e).remainingSeconds = N ∧
     (TimerA.start N e).state = .running ∧
     (TimerA.start N e).alarmCount = e.alarmCount) ∧
    (∀ k : Nat, (k : Int) < N →
      (TimerA.ticks k (TimerA.start N e)).remainingSeconds = N - k ∧
      (TimerA.ticks k (TimerA.start N e)).state = .running ∧
      (TimerA.ticks k (TimerA.start N e)).alarmCount = e.alarmCount) ∧
    (∀ m : Nat,
      (TimerA.ticks (N.toNat + m) (TimerA.start N e)).remainingSeconds = 0 ∧
      (TimerA.ticks (N.toNat + m) (TimerA.start N e)).state = .done ∧
      (TimerA.ticks (N.toNat + m) (TimerA.start N e)).alarmCount
        = e.alarmCount + 1) ∧
    ((TimerB.start N e).remainingSeconds = N ∧
     (TimerB.start N e).state = .running ∧
     (TimerB.start N e).alarmCount = e.alarmCount) ∧
    (∀ k : Nat, (k : Int) < N →
      (TimerB.ticks k (TimerB.start N e)).remainingSeconds = N - k ∧
      (TimerB.ticks k (TimerB.start N e)).state = .running ∧
      (TimerB.ticks k (TimerB.start N e)).alarmCount = e.alarmCount) ∧
    (∀ m : Nat,
      (TimerB.ticks (N.toNat + m) (TimerB.start N e)).remainingSeconds = 0 ∧
      (TimerB.ticks (N.toNat + m) (TimerB.start N e)).state = .done ∧
      (TimerB.ticks (N.toNat + m) (TimerB.start N e)).alarmCount
        = e.alarmCount + 1) := by
  have hA : TimerA.start N e = TimerA.startRaw N e :=
    TimerA.start_eq_raw N e (by omega)
  rw [hA]
  refine ⟨⟨rfl, rfl, rfl⟩, ?_, ?_, ⟨rfl, rfl, rfl⟩, ?_, ?_⟩
  · intro k hk
    obtain ⟨h1, h2, h3, h4, h5, h6, h7⟩ :=
      TimerA.run_countdown k (TimerA.startRaw N e) rfl rfl hk
    exact ⟨h1, h2, h5⟩
  · intro m
    have h := TimerA.countdown_complete (TimerA.startRaw N e) rfl rfl rfl
      (by exact hN) m
    exact ⟨h.1, h.2.1, h.2.2.2⟩
  · intro k hk
    obtain ⟨h1, h2, h3, h4, h5, h6, h7⟩ :=
      TimerB.run_countdownB k (TimerB.startRaw N e) rfl hk
    exact ⟨h1, h2, h5⟩
  · intro m
    have h := TimerB.countdown_completeB (TimerB.startRaw N e) rfl rfl
      (by exact hN) m
    exact ⟨h.1, h.2.1, h.2.2.2⟩

/-- C1 witness: the spec scenario `start(5)` → after 5 ticks the state is
`done`, the remaining time is `0`, and the alarm fired once, in both
variants. -/
theorem claim1_witness :
    (1 : Int) ≤ 5 ∧
    ((TimerA.ticks 5 (TimerA.start 5 Engine.init)).state = .done ∧
     (TimerA.ticks 5 (TimerA.start 5 Engine.init)).remainingSeconds = 0 ∧
     (TimerA.ticks 5 (TimerA.start 5 Engine.init)).alarmCount = 1 ∧
     (TimerB.ticks 5 (TimerB.start 5 Engine.init)).state = .done) := by
  have h := claim1_countdown_to_done Engine.init 5 (by norm_num)
  exact ⟨by norm_num, (h.2.2.1 0).2.1, (h.2.2.1 0).1, (h.2.2.1 0).2.2,
    (h.2.2.2.2.2 0).2.1⟩

/-- C5: calling `start(B)` while a previous run with total `A` is still
incomplete (after `j < A` ticks) discards the previous schedule: the new
run has `remainingSeconds = B`, a re-armed one-shot guard, stays running
for the first `B - 1` ticks, and completes (with exactly one alarm) after
`B` ticks — not after `A` — in both variants.  `clearTimer` in `start`
replaces the single interval handle, so the model has no stale schedule
whose ticks could reach the new run. -/
theorem claim5_retarget (e : Engine) (A B : Int) (j : Nat) (f g : Engine)
    (hB : 1 ≤ B) (hj : (j : Int) < A)
    (hf : f = TimerA.ticks j (TimerA.start A e))
    (hg : g = TimerB.ticks j (TimerB.start A e)) :
    ((TimerA.start B f).remainingSeconds = B ∧
     (TimerA.start B f).state = .running ∧
     (TimerA.start B f).alarmFired = false) ∧
    (∀ k : Nat, (k : Int) < B →
      (TimerA.ticks k (TimerA.start B f)).remainingSeconds = B - k ∧
      (TimerA.ticks k (TimerA.start B f)).state = .running) ∧
    (∀ m : Nat,
      (TimerA.ticks (B.toNat + m) (TimerA.start B f)).state = .done ∧
      (TimerA.ticks (B.toNat + m) (TimerA.start B f)).remainingSeconds = 0 ∧
      (TimerA.ticks (B.toNat + m) (TimerA.start B f)).alarmCount
        = f.alarmCount + 1) ∧
    ((TimerB.start B g).remainingSeconds = B ∧
     (TimerB.start B g).state = .running ∧
     (TimerB.start B g).alarmFired = false) ∧
    (∀ k : Nat, (k : Int) < B →
      (TimerB.ticks k (TimerB.start B g)).remainingSeconds = B - k ∧
      (TimerB.ticks k (TimerB.start B g)).state = .running) ∧
    (∀ m : Nat,
      (TimerB.ticks (B.toNat + m) (TimerB.start B g)).state = .done ∧
      (TimerB.ticks (B.toNat + m) (TimerB.start B g)).remainingSeconds = 0 ∧
      (TimerB.ticks (B.toNat + m) (TimerB.start B g)).alarmCount
        = g.alarmCount + 1) := by
  have hA : TimerA.start B f = TimerA.startRaw B f :=
    TimerA.start_eq_raw B f (by omega)
  rw [hA]
  refine ⟨⟨rfl, rfl, rfl⟩, ?_, ?_, ⟨rfl, rfl, rfl⟩, ?_, ?_⟩
  · intro k hk
    obtain ⟨h1, h2, h3, h4, h5, h6, h7⟩ :=
      TimerA.run_countdown k (TimerA.startRaw B f) rfl rfl hk
    exact ⟨h1, h2⟩
  · intro m
    have h := TimerA.countdown_complete (TimerA.startRaw B f) rfl rfl rfl
      (by exact hB) m
    exact ⟨h.2.1, h.1, h.2.2.2⟩
  · intro k hk
    obtain ⟨h1, h2, h3, h4, h5, h6, h7⟩ :=
      TimerB.run_countdownB k (TimerB.startRaw B g) rfl hk
    exact ⟨h1, h2⟩
  · intro m
    have h := TimerB.countdown_completeB (TimerB.startRaw B g) rfl rfl
      (by exact hB) m
    exact ⟨h.2.1, h.1, h.2.2.2⟩

/-- C5 witness: the spec scenario `start(10)` then `start(3)` before any
tick — the engine ends `done` after 3 ticks with one alarm, in both
variants. -/
theorem claim5_witness :
    (1 : Int) ≤ 3 ∧ ((0 : Nat) : Int) < 10 ∧
    ((TimerA.ticks 3 (TimerA.start 3
        (TimerA.ticks 0 (TimerA.start 10 Engine.init)))).state = .done ∧
     (TimerA.ticks 3 (TimerA.start 3
        (TimerA.ticks 0 (TimerA.start 10 Engine.init)))).remainingSeconds = 0 ∧
     (TimerB.ticks 3 (TimerB.start 3
        (TimerB.ticks 0 (TimerB.start 10 Engine.init)))).state = .done) := by
  have h := claim5_retarget Engine.init 10 3 0
    (TimerA.ticks 0 (TimerA.start 10 Engine.init))
    (TimerB.ticks 0 (TimerB.start 10 Engine.init))
    (by norm_num) (by norm_num) rfl rfl
  exact ⟨by norm_num, by norm_num, (h.2.2.1 0).1, (h.2.2.1 0).2.1,
    (h.2.2.2.2.2 0).1⟩

/-- The completion watcher never changes the remaining time. -/
lemma watchA_remaining (e : Engine) :
    (TimerA.watch e).remainingSeconds = e.remainingSeconds := by
  unfold TimerA.watch clearTimer
  split
  · simp [apply_ite]
  · rfl

/-- A watcher-variant tick at zero remaining time leaves it at zero. -/
lemma tickA_remaining_zero (f : Engine) (h0 : f.remainingSeconds = 0) :
    (TimerA.tick f).remainingSeconds = 0 := by
  show (TimerA.watch (TimerA.tickRaw f)).remainingSeconds = 0
  rw [watchA_remaining]
  simp [TimerA.tickRaw, tickUpdate, h0, apply_ite]

/-- An interval-callback-variant tick at zero remaining time leaves it at
zero. -/
lemma tickB_remaining_zero (f : Engine) (h0 : f.remainingSeconds = 0) :
    (TimerB.tick f).remainingSeconds = 0 := by
  simp [TimerB.tick, tickUpdate, clearTimer, h0, apply_ite]

/-- C10: `start(0)` first leaves the engine `running` with
`remainingSeconds = 0`, and the run still completes with exactly one
alarm — immediately via the completion watcher in the watcher variant,
and on the first tick in the interval-callback variant; moreover a tick
applied at zero remaining time leaves it at zero, and the tick update
never produces a negative remaining time. -/
theorem claim10_start_zero (e : Engine) :
    ((TimerA.startRaw 0 e).state = .running ∧
     (TimerA.startRaw 0 e).remainingSeconds = 0) ∧
    ((TimerA.start 0 e).state = .done ∧
     (TimerA.start 0 e).remainingSeconds = 0 ∧
     (TimerA.start 0 e).alarmCount = e.alarmCount + 1) ∧
    TimerA.watch (TimerA.start 0 e) = TimerA.start 0 e ∧
    (∀ m : Nat, TimerA.ticks m (TimerA.start 0 e) = TimerA.start 0 e) ∧
    ((TimerB.start 0 e).state = .running ∧
     (TimerB.start 0 e).remainingSeconds = 0 ∧
     (TimerB.start 0 e).alarmCount = e.alarmCount) ∧
    ((TimerB.tick (TimerB.start 0 e)).state = .done ∧
     (TimerB.tick (TimerB.start 0 e)).remainingSeconds = 0 ∧
     (TimerB.tick (TimerB.start 0 e)).alarmCount = e.alarmCount + 1) ∧
    (∀ f : Engine, f.remainingSeconds = 0 →
      (TimerA.tick f).remainingSeconds = 0 ∧
      (TimerB.tick f).remainingSeconds = 0) ∧
    (∀ prev : Int, 0 ≤ tickUpdate prev) := by
  have hA : TimerA.start 0 e
      = { TimerA.startRaw 0 e with
          state := .done, intervalActive := false, alarmFired := true,
          alarmCount := (TimerA.startRaw 0 e).alarmCount + 1,
          doneCount := (TimerA.startRaw 0 e).doneCount + 1 } :=
    TimerA.watch_fire (TimerA.startRaw 0 e) rfl rfl rfl
  have hB : TimerB.tick (TimerB.start 0 e)
      = { TimerB.startRaw 0 e with
          remainingSeconds := 0, state := .done,
          intervalActive := false, alarmFired := true,
          alarmCount := (TimerB.startRaw 0 e).alarmCount + 1,
          doneCount := (TimerB.startRaw 0 e).doneCount + 1 } :=
    TimerB.tick_finishB (TimerB.startRaw 0 e) rfl
      (by show (0 : Int) ≤ 1; norm_num) rfl
  refine ⟨⟨rfl, rfl⟩, ?_, ?_, ?_, ⟨rfl, rfl, rfl⟩, ?_, ?_, ?_⟩
  · rw [hA]; exact ⟨rfl, rfl, rfl⟩
  · rw [hA]; exact TimerA.watch_of_not_running _ (by simp)
  · intro m; rw [hA]; exact TimerA.ticks_of_done m _ rfl rfl
  · rw [hB]; exact ⟨rfl, rfl, rfl⟩
  · intro f h0
    exact ⟨tickA_remaining_zero f h0, tickB_remaining_zero f h0⟩
  · intro prev
    unfold tickUpdate
    split <;> omega

/-- C10 witness: at the initial engine state, `start(0)` completes with
one alarm and ticks at zero leave the remaining time at zero. -/
theorem claim10_witness :
    Engine.init.remainingSeconds = 0 ∧
    ((TimerA.start 0 Engine.init).state = .done ∧
     (TimerA.start 0 Engine.init).alarmCount = 1 ∧
     (TimerB.tick (TimerB.start 0 Engine.init)).state = .done ∧
     (TimerA.tick Engine.init).remainingSeconds = 0 ∧
     (TimerB.tick Engine.init).remainingSeconds = 0) := by
  have h := claim10_start_zero Engine.init
  exact ⟨rfl, h.2.1.1, h.2.1.2.2, h.2.2.2.2.2.1.1,
    (h.2.2.2.2.2.2.1 Engine.init rfl).1, (h.2.2.2.2.2.2.1 Engine.init rfl).2⟩

/-!
The one-shot invariant and its preservation, for claim C2.
-/

/-- The initial hook state satisfies the one-shot invariant. -/
lemma inv_init : EngineInv Engine.init := by
  unfold EngineInv
  refine ⟨fun h => Bool.noConfusion h, ?_, ?_⟩ <;>
    simp [potAlarm, potDone, Engine.init]

namespace TimerA

/-- The watcher never changes the `start` counter. -/
lemma watch_startCount (e : Engine) :
    (watch e).startCount = e.startCount := by
  unfold watch clearTimer
  split
  · simp [apply_ite]
  · rfl

/-- The watcher preserves the one-shot invariant, in particular when it
is replayed on a state where the run already completed. -/
lemma watch_inv (e : Engine) (h : EngineInv e) : EngineInv (watch e) := by
  by_cases hg : e.state = .running ∧ e.remainingSeconds = 0
  · obtain ⟨hs, h0⟩ := hg
    by_cases hf : e.alarmFired = true
    · have hw : watch e = { e with
                            state := .done, intervalActive := false,
                            doneCount := e.doneCount + 1 } := by
        unfold watch clearTimer
        rw [if_pos ⟨hs, h0⟩]
        simp [hf]
      rw [hw]
      simp [EngineInv, potAlarm, potDone, hs, hf] at h ⊢
      omega
    · have hfn : e.alarmFired = false := by
        revert hf; cases e.alarmFired <;> simp
      rw [watch_fire e hs h0 hfn]
      simp [EngineInv, potAlarm, potDone, hs, hfn] at h ⊢
      omega
  · unfold watch
    rw [if_neg hg]
    exact h

/-- Every watcher-variant event preserves the one-shot invariant. -/
lemma stepEvent_inv (e : Engine) (ev : Event) (h : EngineInv e) :
    EngineInv (stepEvent e ev) := by
  have ha : e.alarmCount ≤ e.startCount :=
    le_trans (Nat.le_add_right _ _) h.2.1
  have hd : e.doneCount ≤ e.startCount :=
    le_trans (Nat.le_add_right _ _) h.2.2
  cases ev with
  | start n =>
    refine watch_inv _ ?_
    simp [EngineInv, potAlarm, potDone, startRaw, clearTimer]
    omega
  | tick =>
    refine watch_inv _ ?_
    unfold tickRaw
    split
    · exact h
    · exact h
  | reset =>
    show EngineInv (reset e)
    simp [EngineInv, potAlarm, potDone, reset, clearTimer]
    omega
  | watch => exact watch_inv e h

/-- The one-shot invariant holds after any event sequence. -/
lemma run_inv (evs : List Event) (e : Engine) (h : EngineInv e) :
    EngineInv (run e evs) := by
  induction evs generalizing e with
  | nil => exact h
  | cons ev rest ih => exact ih (stepEvent e ev) (stepEvent_inv e ev h)

/-- Each event adds one to the `start` counter exactly when it is a
`start` call. -/
lemma stepEvent_startCount (e : Engine) (ev : Event) :
    (stepEvent e ev).startCount
      = e.startCount + (if isStart ev then 1 else 0) := by
  cases ev with
  | start n =>
    show (watch (startRaw n e)).startCount = _
    rw [watch_startCount]
    rfl
  | tick =>
    show (watch (tickRaw e)).startCount = _
    rw [watch_startCount]
    unfold tickRaw
    split <;> rfl
  | reset => rfl
  | watch =>
    show (watch e).startCount = _
    rw [watch_startCount]
    rfl

/-- The final `start` counter counts the `start` events of the run. -/
lemma run_startCount (evs : List Event) (e : Engine) :
    (run e evs).startCount = e.startCount + countStarts evs := by
  induction evs generalizing e with
  | nil => rfl
  | cons ev rest ih =>
    show (run (stepEvent e ev) rest).startCount = _
    rw [ih (stepEvent e ev), stepEvent_startCount]
    unfold countStarts
    rw [List.countP_cons]
    cases hb : isStart ev <;> simp [hb] <;> omega

end TimerA

namespace TimerB

/-- The final tick when the one-shot guard is already set: the run ends
but no second alarm fires. -/
lemma tick_finish_fired (e : Engine) (hi : e.intervalActive = true)
    (hr : e.remainingSeconds ≤ 1) (hf : e.alarmFired = true) :
    tick e = { e with
               remainingSeconds := 0, state := .done,
               intervalActive := false, doneCount := e.doneCount + 1 } := by
  simp [tick, tickUpdate, clearTimer, hi, hf, hr]

/-- The interval callback preserves the one-shot invariant. -/
lemma tick_inv (e : Engine) (h : EngineInv e) : EngineInv (tick e) := by
  by_cases hi : e.intervalActive = true
  · have hs : e.state = .running := h.1 hi
    by_cases hr : e.remainingSeconds ≤ 1
    · by_cases hf : e.alarmFired = true
      · rw [tick_finish_fired e hi hr hf]
        simp [EngineInv, potAlarm, potDone, hs, hf] at h ⊢
        omega
      · have hfn : e.alarmFired = false := by
          revert hf; cases e.alarmFired <;> simp
        rw [tick_finishB e hi hr hfn]
        simp [EngineInv, potAlarm, potDone, hs, hfn] at h ⊢
        omega
    · rw [tick_decrementB e hi (by omega)]
      exact h
  · have hin : e.intervalActive = false := by
      revert hi; cases e.intervalActive <;> simp
    rw [tick_of_inactive e hin]
    exact h

/-- Every interval-callback-variant event preserves the one-shot
invariant. -/
lemma stepEvent_invB (e : Engine) (ev : Event) (h : EngineInv e) :
    EngineInv (stepEvent e ev) := by
  have ha : e.alarmCount ≤ e.startCount :=
    le_trans (Nat.le_add_right _ _) h.2.1
  have hd : e.doneCount ≤ e.startCount :=
    le_trans (Nat.le_add_right _ _) h.2.2
  cases ev with
  | start n =>
    show EngineInv (start n e)
    simp [EngineInv, potAlarm, potDone, start, startRaw, clearTimer]
    omega
  | tick => exact tick_inv e h
  | reset =>
    show EngineInv (reset e)
    simp [EngineInv, potAlarm, potDone, reset, clearTimer]
    omega

/-- The one-shot invariant holds after any event sequence. -/
lemma run_invB (evs : List Event) (e : Engine) (h : EngineInv e) :
    EngineInv (run e evs) := by
  induction evs generalizing e with
  | nil => exact h
  | cons ev rest ih => exact ih (stepEvent e ev) (stepEvent_invB e ev h)

/-- The interval callback never changes the `start` counter. -/
lemma tick_startCount (e : Engine) : (tick e).startCount = e.startCount := by
  simp [tick, tickUpdate, clearTimer, apply_ite]

/-- Each event adds one to the `start` counter exactly when it is a
`start` call. -/
lemma stepEvent_startCountB (e : Engine) (ev : Event) :
    (stepEvent e ev).startCount
      = e.startCount + (if isStart ev then 1 else 0) := by
  cases ev with
  | start n => rfl
  | tick =>
    show (tick e).startCount = _
    rw [tick_startCount]
    rfl
  | reset => rfl

/-- The final `start` counter counts the `start` events of the run. -/
lemma run_startCountB (evs : List Event) (e : Engine) :
    (run e evs).startCount = e.startCount + countStarts evs := by
  induction evs generalizing e with
  | nil => rfl
  | cons ev rest ih =>
    show (run (stepEvent e ev) rest).startCount = _
    rw [ih (stepEvent e ev), stepEvent_startCountB]
    unfold countStarts
    rw [List.countP_cons]
    cases hb : isStart ev <;> simp [hb] <;> omega

end TimerB

/-- C2: over any sequence of `start`/`tick`/`reset` operations — and, in
the watcher variant, any replay of the completion check — the engine
reaches `done` at most once per `start` call and invokes `playAlarm` at
most once per `start` call, in both variants of `useTimer`. -/
theorem claim2_one_shot_guard (evsA : List TimerA.Event)
    (evsB : List TimerB.Event) :
    (TimerA.run Engine.init evsA).alarmCount ≤ TimerA.countStarts evsA ∧
    (TimerA.run Engine.init evsA).doneCount ≤ TimerA.countStarts evsA ∧
    (TimerB.run Engine.init evsB).alarmCount ≤ TimerB.countStarts evsB ∧
    (TimerB.run Engine.init evsB).doneCount ≤ TimerB.countStarts evsB := by
  have hIA := TimerA.run_inv evsA Engine.init inv_init
  have hSA := TimerA.run_startCount evsA Engine.init
  have hIB := TimerB.run_invB evsB Engine.init inv_init
  have hSB := TimerB.run_startCountB evsB Engine.init
  have h0A : Engine.init.startCount = 0 := rfl
  rw [h0A] at hSA hSB
  obtain ⟨-, ha1, hd1⟩ := hIA
  obtain ⟨-, ha2, hd2⟩ := hIB
  refine ⟨?_, ?_, ?_, ?_⟩ <;> omega

/-!
Helper lemmas for the alarm subsystem.
-/

/-- The fallback path always resolves: a rejected clip playback is caught
by the `.catch` and handled with the vibration fallback. -/
lemma playFallbackAlarmE_ok (env : SoundEnv) :
    ∃ tr, playFallbackAlarmE env = Except.ok tr := by
  unfold playFallbackAlarmE getFallbackAudioM clipPlayOp
  by_cases hE : env.hasAudioElement
  · rw [if_pos hE]
    by_cases hC : env.clipPlayOk
    · rw [if_pos hC]
      exact ⟨_, rfl⟩
    · rw [if_neg hC]
      exact ⟨_, rfl⟩
  · rw [if_neg hE]
    exact ⟨_, rfl⟩

/-- Whenever the synthesized path is unavailable — iOS-like platform, no
`AudioContext` constructor, or a blocked context whose resume rejects —
`playAlarm` runs exactly the fallback path. -/
lemma playAlarmE_fallback_of_unavailable (env : SoundEnv)
    (h : env.likelyIOS = true ∨ env.hasAudioContext = false ∨
      (env.ctxBlocked = true ∧ env.resumeOk = false)) :
    playAlarmE env = playFallbackAlarmE env := by
  unfold playAlarmE getAudioContextM resumeOp
  rcases h with hI | hX | ⟨hB, hR⟩
  · rw [if_pos hI]
  · by_cases hI : env.likelyIOS
    · rw [if_pos hI]
    · rw [if_neg hI]
      simp [hX]
  · by_cases hI : env.likelyIOS
    · rw [if_pos hI]
    · rw [if_neg hI]
      by_cases hX : env.hasAudioContext
      · simp [hX, hB, hR]
      · simp [hX]

/-- The action trace of the fallback path when the clip element exists:
rewind, full volume, exactly one playback request, and the vibration
pattern only when the playback rejects. -/
lemma playFallbackAlarmE_trace (env : SoundEnv)
    (hE : env.hasAudioElement = true) :
    playFallbackAlarmE env = Except.ok
      ([.clipPause, .clipSeekZero, .clipSetVolume 1, .clipPlayAttempt]
        ++ (if env.clipPlayOk then [] else playVibrationFallback env)) := by
  unfold playFallbackAlarmE getFallbackAudioM clipPlayOp
  rw [if_pos hE]
  by_cases hC : env.clipPlayOk
  · rw [if_pos hC, if_pos hC]
    simp
  · rw [if_neg hC, if_neg hC]

/-!
Claim theorems for the alarm subsystem.
-/

/-- C8: `play()` and `prime()` never let a failure escape: for every
platform environment all rejection paths are caught internally and the
call resolves, degrading from the synthesized pattern to the
pre-rendered clip and finally to vibration (or silence). -/
theorem claim8_play_prime_never_throw (env : SoundEnv) (st : SoundState) :
    (∃ tr, playAlarmE env = Except.ok tr) ∧
    (∃ r, primeAlarmAudioE env st = Except.ok r) ∧
    ((env.likelyIOS = true ∨ env.hasAudioContext = false ∨
        (env.ctxBlocked = true ∧ env.resumeOk = false)) →
      playAlarmE env = playFallbackAlarmE env) ∧
    (env.hasAudioElement = true → env.clipPlayOk = false →
      playFallbackAlarmE env = Except.ok
        ([.clipPause, .clipSeekZero, .clipSetVolume 1, .clipPlayAttempt]
          ++ playVibrationFallback env)) := by
  refine ⟨?_, ⟨_, rfl⟩, playAlarmE_fallback_of_unavailable env, ?_⟩
  · exact
      (by
        unfold playAlarmE getAudioContextM resumeOp
        by_cases hI : env.likelyIOS
        · rw [if_pos hI]; exact playFallbackAlarmE_ok env
        · rw [if_neg hI]
          by_cases hX : env.hasAudioContext
          · rw [if_pos hX]
            by_cases hB : env.ctxBlocked
            · simp only [if_pos hB]
              by_cases hR : env.resumeOk
              · rw [if_pos hR]; exact ⟨_, rfl⟩
              · rw [if_neg hR]; exact playFallbackAlarmE_ok env
            · simp only [if_neg hB]
              exact ⟨_, rfl⟩
          · rw [if_neg hX]; exact playFallbackAlarmE_ok env)
  · intro hE hC
    rw [playFallbackAlarmE_trace env hE, if_neg (by rw [hC]; exact
      Bool.false_ne_true)]

/-- C8 witness: on an iOS-like platform with a locked clip and no
vibration support, `play()` still resolves and runs the fallback path,
which ends with the single playback request and silence. -/
theorem claim8_witness :
    (∃ tr, playAlarmE
      { likelyIOS := true, hasAudioContext := false, ctxBlocked := false,
        resumeOk := false, hasAudioElement := true, clipPlayOk := false,
        canVibrate := false } = Except.ok tr) ∧
    playAlarmE
      { likelyIOS := true, hasAudioContext := false, ctxBlocked := false,
        resumeOk := false, hasAudioElement := true, clipPlayOk := false,
        canVibrate := false }
      = playFallbackAlarmE
      { likelyIOS := true, hasAudioContext := false, ctxBlocked := false,
        resumeOk := false, hasAudioElement := true, clipPlayOk := false,
        canVibrate := false } := by
  have h := claim8_play_prime_never_throw
    { likelyIOS := true, hasAudioContext := false, ctxBlocked := false,
      resumeOk := false, hasAudioElement := true, clipPlayOk := false,
      canVibrate := false }
    { isAudioUnlocked := false, fallbackAudioUnlocked := false }
  exact ⟨h.1, h.2.2.1 (Or.inl rfl)⟩

/-- C3 counterexample: in a fallback environment where the clip plays
successfully, the complete action trace of `play()` holds exactly one
clip playback request and no repetition — there is no repeat sequence,
no inter-repeat gap, and no run identifier, contradicting the claimed
repeat loop. -/
theorem claim3_counterexample :
    playAlarmE
      { likelyIOS := true, hasAudioContext := true, ctxBlocked := false,
        resumeOk := true, hasAudioElement := true, clipPlayOk := true,
        canVibrate := true }
      = Except.ok [.clipPause, .clipSeekZero, .clipSetVolume 1,
          .clipPlayAttempt] ∧
    List.count SoundAction.clipPlayAttempt
      [SoundAction.clipPause, .clipSeekZero, .clipSetVolume 1,
        .clipPlayAttempt] = 1 := by
  exact ⟨rfl, by decide⟩

/-- C3 (amended): when the synthesized audio path is unavailable and the
clip element exists, `play()` rewinds the pre-rendered clip and requests
its playback exactly once — there is no repeat loop, gap, or run
identifier, and no `stop` operation exists in the module — and a
rejected playback degrades to a single vibration pattern. -/
theorem claim3_fallback_single_play (env : SoundEnv)
    (hUnavail : env.likelyIOS = true ∨ env.hasAudioContext = false ∨
      (env.ctxBlocked = true ∧ env.resumeOk = false))
    (hE : env.hasAudioElement = true) :
    playAlarmE env = Except.ok
      ([.clipPause, .clipSeekZero, .clipSetVolume 1, .clipPlayAttempt]
        ++ (if env.clipPlayOk then [] else playVibrationFallback env)) ∧
    (∀ tr, playAlarmE env = Except.ok tr →
      List.count SoundAction.clipPlayAttempt tr = 1) := by
  have hplay : playAlarmE env = Except.ok
      ([.clipPause, .clipSeekZero, .clipSetVolume 1, .clipPlayAttempt]
        ++ (if env.clipPlayOk then [] else playVibrationFallback env)) :=
    (playAlarmE_fallback_of_unavailable env hUnavail).trans
      (playFallbackAlarmE_trace env hE)
  refine ⟨hplay, ?_⟩
  intro tr htr
  rw [hplay] at htr
  injection htr with htr'
  subst htr'
  by_cases hC : env.clipPlayOk
  · rw [if_pos hC]
    decide
  · rw [if_neg hC]
    unfold playVibrationFallback
    by_cases hV : env.canVibrate
    · rw [if_pos hV]
      decide
    · rw [if_neg hV]
      decide

/-- C3 (amended) witness: the single-playback trace at the concrete
iOS-like environment with a working clip. -/
theorem claim3_witness :
    playAlarmE
      { likelyIOS := true, hasAudioContext := true, ctxBlocked := false,
        resumeOk := true, hasAudioElement := true, clipPlayOk := true,
        canVibrate := false }
      = Except.ok
        ([.clipPause, .clipSeekZero, .clipSetVolume 1, .clipPlayAttempt]
          ++ []) := by
  have h := claim3_fallback_single_play
    { likelyIOS := true, hasAudioContext := true, ctxBlocked := false,
      resumeOk := true, hasAudioElement := true, clipPlayOk := true,
      canVibrate := false }
    (Or.inl rfl) rfl
  exact h.1

end PomodoroTimer
